import Mathlib

/-!
Verification of `src/src/MachO/RelocationFixup.cpp` (LIEF, MachO chained
fixup rebase records).

The record type `RelocationFixup` is embedded with machine integers as `Nat`
reduced modulo `2^64` where C `uint64_t` arithmetic wraps.  The C++ object
keeps a discriminator `rtypes_` together with a union of owning pointers to
exactly one payload struct; under the source's invariant (the pointer member
always matches the tag) this pair is isomorphic to the sum type
`RebasePayload` used here.  A second, heap-aware model (`HRelocationFixup`
together with an explicit allocation store `Heap`) is used for the claims
about payload ownership, allocation and content-based equality, where the
identity of the allocated payload cell matters.

The payload bit-field structs (`dyld_chained_ptr_64_rebase`, ...) and the
pack/unpack codecs live in headers that are not part of the given source;
they are modelled from the spec (sections 4.2 and 6), with the field widths
of the platform's published chained-fixup pointer format that the spec
references.
-/

/-- Severity of a diagnostic emitted through the logging channel
(`LIEF_ERR` / `LIEF_WARN` in the source). -/
inductive LogMessage where
  | err
  | warn
deriving DecidableEq

/-- The rebase-record discriminator `RelocationFixup::REBASE_TYPES`. -/
inductive REBASE_TYPES where
  | ARM64E_REBASE
  | ARM64E_AUTH_REBASE
  | PTR64_REBASE
  | PTR32_REBASE
  | UNKNOWN
deriving DecidableEq

/-- Relocation provenance tags (subset of `RELOCATION_ORIGINS` relevant
here). -/
inductive RELOCATION_ORIGINS where
  | ORIGIN_UNKNOWN
  | ORIGIN_DYLDINFO
  | ORIGIN_RELOC_TABLE
  | ORIGIN_CHAINED_FIXUPS
deriving DecidableEq

/-- Modelled from the spec: the ARM64e rebase payload
`details::dyld_chained_ptr_arm64e_rebase` (header not in the given source).
Bit-fields of the published chained-fixup format: `target` 43 bits,
`high8` 8 bits, `next` 11 bits, `bind` 1 bit, `auth` 1 bit.  Fields are
`Nat`s read modulo their width, matching C bit-field storage. -/
structure dyld_chained_ptr_arm64e_rebase where
  target : Nat
  high8 : Nat
  next : Nat
  bind : Nat
  auth : Nat
deriving DecidableEq

/-- Modelled from the spec: the ARM64e authenticated rebase payload
`details::dyld_chained_ptr_arm64e_auth_rebase` (header not in the given
source).  Disjoint fixed-width fields: `target` 32 bits (a direct relative
offset, no bit-scatter), `diversity` 16 bits, `addrDiv` 1 bit, `key` 2
bits, `next` 11 bits, `bind` 1 bit, `auth` 1 bit. -/
structure dyld_chained_ptr_arm64e_auth_rebase where
  target : Nat
  diversity : Nat
  addrDiv : Nat
  key : Nat
  next : Nat
  bind : Nat
  auth : Nat
deriving DecidableEq

/-- Modelled from the spec: the generic 64-bit rebase payload
`details::dyld_chained_ptr_64_rebase` (header not in the given source).
Bit-fields of the published format: `target` 36 bits, `high8` 8 bits,
`reserved` 7 bits, `next` 12 bits, `bind` 1 bit. -/
structure dyld_chained_ptr_64_rebase where
  target : Nat
  high8 : Nat
  reserved : Nat
  next : Nat
  bind : Nat
deriving DecidableEq

/-- Modelled from the spec: the generic 32-bit rebase payload
`details::dyld_chained_ptr_32_rebase` (header not in the given source).
Bit-fields: `target` 26 bits, `next` 5 bits, `bind` 1 bit. -/
structure dyld_chained_ptr_32_rebase where
  target : Nat
  next : Nat
  bind : Nat
deriving DecidableEq

/-- Modelled from the spec: `dyld_chained_ptr_generic64::unpack_target`
reached through the overlay in the source's inline
`unpack_target(const details::dyld_chained_ptr_64_rebase&)`.  The decoded
relative target scatters across two bit ranges: `high8` becomes bits
56..63 and `target` the low 36 bits (`high8 << 56 | target`; the ranges
are disjoint, so the bitwise or is the sum written here). -/
def unpack_target_64 (rebase : dyld_chained_ptr_64_rebase) : Nat :=
  (rebase.high8 % 2 ^ 8) * 2 ^ 56 + rebase.target % 2 ^ 36

/-- Modelled from the spec: `dyld_chained_ptr_arm64e::unpack_target`
reached through the overlay in the source's inline
`unpack_target(const details::dyld_chained_ptr_arm64e_rebase&)`.  Same
extraction discipline as the generic 64-bit payload, with a 43-bit
`target` field. -/
def unpack_target_arm64e (rebase : dyld_chained_ptr_arm64e_rebase) : Nat :=
  (rebase.high8 % 2 ^ 8) * 2 ^ 56 + rebase.target % 2 ^ 43

/-- Modelled from the spec: `pack_target` on a generic 64-bit rebase
payload (called by the source's setter, defined in a header not in the
given source).  The inverse of `unpack_target_64`: mask the low 36 bits
into `target` and bits 56..63 into `high8`, without disturbing the
`reserved`/`next`/`bind` fields. -/
def pack_target_64 (rebase : dyld_chained_ptr_64_rebase) (t : Nat) :
    dyld_chained_ptr_64_rebase :=
  { rebase with target := t % 2 ^ 36, high8 := t / 2 ^ 56 % 2 ^ 8 }

/-- Modelled from the spec: `pack_target` on an ARM64e rebase payload
(called by the source's setter, defined in a header not in the given
source).  The inverse of `unpack_target_arm64e`, leaving the
`next`/`bind`/`auth` fields untouched. -/
def pack_target_arm64e (rebase : dyld_chained_ptr_arm64e_rebase) (t : Nat) :
    dyld_chained_ptr_arm64e_rebase :=
  { rebase with target := t % 2 ^ 43, high8 := t / 2 ^ 56 % 2 ^ 8 }

/-- The active payload of a record: exactly one of the four encodings, or
none (`UNKNOWN`).  This is the sum-type reading of the C++ tag `rtypes_`
together with the union of owning payload pointers, under the source's
invariant that the two always match. -/
inductive RebasePayload where
  | unknown
  | arm64_rebase (p : dyld_chained_ptr_arm64e_rebase)
  | arm64_auth_rebase (p : dyld_chained_ptr_arm64e_auth_rebase)
  | p64_rebase (p : dyld_chained_ptr_64_rebase)
  | p32_rebase (p : dyld_chained_ptr_32_rebase)
deriving DecidableEq

/-- The discriminator carried by a payload (the value of `rtypes_`). -/
def RebasePayload.rtypes : RebasePayload → REBASE_TYPES
  | .unknown => .UNKNOWN
  | .arm64_rebase _ => .ARM64E_REBASE
  | .arm64_auth_rebase _ => .ARM64E_AUTH_REBASE
  | .p64_rebase _ => .PTR64_REBASE
  | .p32_rebase _ => .PTR32_REBASE

/-- Value-level model of `LIEF::MachO::RelocationFixup`: the pointer format
`ptr_fmt_`, the image base `imagebase_`, the record's own relative offset
`offset_`, and the tagged payload.  All integer fields are C `uint64_t`
values. -/
structure RelocationFixup where
  ptr_fmt : Nat
  imagebase : Nat
  offset : Nat
  payload : RebasePayload
deriving DecidableEq

/-- The constructor `RelocationFixup(DYLD_CHAINED_PTR_FORMAT, uint64_t)`:
a fresh record has the given format and image base, offset zero and no
payload (`rtypes_` defaults to `UNKNOWN`). -/
def RelocationFixup.create (fmt imagebase : Nat) : RelocationFixup :=
  ⟨fmt, imagebase, 0, .unknown⟩

/-- Getter `RelocationFixup::target()`: per-encoding decode of the relative
target, translated to absolute space by adding the image base (`uint64_t`
addition, hence the reduction modulo `2^64`).  The `UNKNOWN` branch logs an
error and the function returns the `0` sentinel. -/
def RelocationFixup.target (f : RelocationFixup) : Nat × List LogMessage :=
  match f.payload with
  | .arm64_rebase p => ((f.imagebase + unpack_target_arm64e p) % 2 ^ 64, [])
  | .arm64_auth_rebase p => ((f.imagebase + p.target % 2 ^ 32) % 2 ^ 64, [])
  | .p64_rebase p => ((f.imagebase + unpack_target_64 p) % 2 ^ 64, [])
  | .p32_rebase p => ((f.imagebase + p.target % 2 ^ 26) % 2 ^ 64, [])
  | .unknown => (0, [.err])

/-- Setter `RelocationFixup::target(uint64_t)`: for the three writable
encodings the input is converted to relative space (`rel_target -=
imagebase_` when it is at least the base) and packed into the payload; the
`PTR32_REBASE` branch logs a warning and returns without mutation; the
`UNKNOWN` branch logs an error and mutates nothing. -/
def RelocationFixup.set_target (f : RelocationFixup) (t : Nat) :
    RelocationFixup × List LogMessage :=
  match f.payload with
  | .arm64_rebase p =>
      let rel_target := if t ≥ f.imagebase then t - f.imagebase else t
      ({ f with payload := .arm64_rebase (pack_target_arm64e p rel_target) }, [])
  | .arm64_auth_rebase p =>
      let rel_target := if t ≥ f.imagebase then t - f.imagebase else t
      ({ f with payload := .arm64_auth_rebase { p with target := rel_target % 2 ^ 32 } }, [])
  | .p64_rebase p =>
      let rel_target := if t ≥ f.imagebase then t - f.imagebase else t
      ({ f with payload := .p64_rebase (pack_target_64 p rel_target) }, [])
  | .p32_rebase _ => (f, [.warn])
  | .unknown => (f, [.err])

/-- Getter `RelocationFixup::address()`: `imagebase_ + offset_` in
`uint64_t` arithmetic. -/
def RelocationFixup.address (f : RelocationFixup) : Nat :=
  (f.imagebase + f.offset) % 2 ^ 64

/-- Setter `RelocationFixup::address(uint64_t)`: `offset_ = address -
imagebase_` with `uint64_t` wraparound and no validation. -/
def RelocationFixup.set_address (f : RelocationFixup) (a : Nat) : RelocationFixup :=
  { f with offset := (a % 2 ^ 64 + (2 ^ 64 - f.imagebase % 2 ^ 64)) % 2 ^ 64 }

/-- `RelocationFixup::is_pc_relative()` is the constant `false`. -/
def RelocationFixup.is_pc_relative (_ : RelocationFixup) : Bool :=
  false

/-- `RelocationFixup::pc_relative(bool)` has an empty body: no state
change. -/
def RelocationFixup.pc_relative (f : RelocationFixup) (_ : Bool) : RelocationFixup :=
  f

/-- `RelocationFixup::origin()` is the constant
`RELOCATION_ORIGINS::ORIGIN_CHAINED_FIXUPS`. -/
def RelocationFixup.origin (_ : RelocationFixup) : RELOCATION_ORIGINS :=
  .ORIGIN_CHAINED_FIXUPS

/-- Content of one heap-allocated payload cell, for the heap-aware model of
the record (the objects created by `new details::dyld_chained_ptr_...`). -/
inductive PayloadVal where
  | arm64_rebase (p : dyld_chained_ptr_arm64e_rebase)
  | arm64_auth_rebase (p : dyld_chained_ptr_arm64e_auth_rebase)
  | p64_rebase (p : dyld_chained_ptr_64_rebase)
  | p32_rebase (p : dyld_chained_ptr_32_rebase)
deriving DecidableEq

/-- The `rtypes_` tag a `set(...)` overload stores alongside this payload
kind. -/
def PayloadVal.rtype : PayloadVal → REBASE_TYPES
  | .arm64_rebase _ => .ARM64E_REBASE
  | .arm64_auth_rebase _ => .ARM64E_AUTH_REBASE
  | .p64_rebase _ => .PTR64_REBASE
  | .p32_rebase _ => .PTR32_REBASE

/-- Allocation store: a fresh-id counter and the list of currently
allocated cells (`new` prepends a cell, `delete` would remove one).  A cell
that stays in `mem` while no record points to it is a leaked allocation. -/
structure Heap where
  nextId : Nat
  mem : List (Nat × PayloadVal)
deriving DecidableEq

/-- Dereference an allocation id. -/
def Heap.get (h : Heap) (i : Nat) : Option PayloadVal :=
  (h.mem.find? (fun c => c.1 == i)).map (fun c => c.2)

/-- `new`: return a fresh id and the heap extended with the new cell. -/
def Heap.alloc (h : Heap) (pv : PayloadVal) : Nat × Heap :=
  (h.nextId, ⟨h.nextId + 1, (h.nextId, pv) :: h.mem⟩)

/-- Heap-aware model of `RelocationFixup`: the discriminator `rtypes_` and
the union-of-pointers member are kept separately, as in the C++ object, so
that allocation identity and tag/pointer mismatches are representable. -/
structure HRelocationFixup where
  ptr_fmt : Nat
  imagebase : Nat
  offset : Nat
  rtypes : REBASE_TYPES
  ptr : Option Nat
deriving DecidableEq

/-- The constructor in the heap model: tag `UNKNOWN`, null payload
pointer. -/
def HRelocationFixup.create (fmt imagebase : Nat) : HRelocationFixup :=
  ⟨fmt, imagebase, 0, .UNKNOWN, none⟩

/-- The `RelocationFixup::set(const details::dyld_chained_ptr_...&)`
overloads (source lines 234-252): store the tag matching the overload and
point the union member at a freshly `new`-allocated copy of the argument.
The previously held payload cell, if any, is not `delete`d by the source,
so it stays allocated in the returned heap. -/
def HRelocationFixup.set (f : HRelocationFixup) (h : Heap) (pv : PayloadVal) :
    HRelocationFixup × Heap :=
  let (i, h') := h.alloc pv
  ({ f with rtypes := pv.rtype, ptr := some i }, h')

/-- Copy-assignment `RelocationFixup::operator=(const RelocationFixup&)`
for two distinct objects (the `this == &other` guard aside): copies
`ptr_fmt_`, `imagebase_`, `offset_` and `rtypes_`, then `new`-allocates a
copy of `other`'s payload for the known tags; for `UNKNOWN` the switch does
nothing, so the left-hand side's old pointer member survives.  The left
side's previously held payload is never `delete`d.  Dereferencing `other`'s
payload pointer is fallible (`none` models the undefined behaviour of a
null or mistyped pointer). -/
def HRelocationFixup.assign (lhs other : HRelocationFixup) (h : Heap) :
    Option (HRelocationFixup × Heap) :=
  if other.rtypes = .UNKNOWN then
    some (⟨other.ptr_fmt, other.imagebase, other.offset, other.rtypes, lhs.ptr⟩, h)
  else
    match other.ptr.bind h.get with
    | some pv =>
        if pv.rtype = other.rtypes then
          let (i, h') := h.alloc pv
          some (⟨other.ptr_fmt, other.imagebase, other.offset, other.rtypes, some i⟩, h')
        else none
    | none => none

/-- Copy construction `RelocationFixup(const RelocationFixup&)` (source
lines 77-91): copies the scalar fields and the tag, and `new`-allocates an
independent copy of the payload for the known tags; for `UNKNOWN` the union
member keeps its null default.  Dereferencing `other`'s payload pointer is
fallible, as in `HRelocationFixup.assign`. -/
def HRelocationFixup.copy (other : HRelocationFixup) (h : Heap) :
    Option (HRelocationFixup × Heap) :=
  if other.rtypes = .UNKNOWN then
    some ({ other with ptr := none }, h)
  else
    match other.ptr.bind h.get with
    | some pv =>
        if pv.rtype = other.rtypes then
          let (i, h') := h.alloc pv
          some ({ other with ptr := some i }, h')
        else none
    | none => none

/-- Modelled from the spec: `Hash::hash` (defined in `hash.cpp`, not in the
given source) is a content-derived fingerprint covering the encoding, the
payload bits, the offset and the image base; it reads the payload through
the pointer, never the pointer value itself.  An `UNKNOWN` record carries
no payload. -/
def Hash.hash (f : HRelocationFixup) (h : Heap) :
    REBASE_TYPES × Option PayloadVal × Nat × Nat :=
  (f.rtypes,
   (match f.rtypes with
    | .UNKNOWN => none
    | _ => f.ptr.bind h.get),
   f.offset, f.imagebase)

/-- `RelocationFixup::operator==` (source lines 117-124): when the two
references denote the same object (`this == &rhs`, the `same` flag) the
comparison short-circuits to `true`; otherwise the two fingerprints are
computed and compared. -/
def HRelocationFixup.op_eq (same : Bool) (a b : HRelocationFixup) (h : Heap) : Bool :=
  if same then true else decide (Hash.hash a h = Hash.hash b h)

/-- C1: for every record whose encoding is ARM64E_REBASE, ARM64E_AUTH_REBASE,
PTR64_REBASE or PTR32_REBASE, `target()` returns the image base plus the
relative target decoded from the active payload (through the per-encoding
unpack for the bit-scattered encodings, directly from the `target` field for
ARM64E_AUTH_REBASE and PTR32_REBASE); in particular a PTR64_REBASE payload
with target bits `0x1000` and image base `0x100000000` yields
`target() = 0x100001000`. -/
theorem C1_target_formula :
    (∀ (fmt base off : Nat) (p : dyld_chained_ptr_arm64e_rebase),
        (RelocationFixup.mk fmt base off (.arm64_rebase p)).target
          = ((base + unpack_target_arm64e p) % 2 ^ 64, [])) ∧
    (∀ (fmt base off : Nat) (p : dyld_chained_ptr_arm64e_auth_rebase),
        (RelocationFixup.mk fmt base off (.arm64_auth_rebase p)).target
          = ((base + p.target % 2 ^ 32) % 2 ^ 64, [])) ∧
    (∀ (fmt base off : Nat) (p : dyld_chained_ptr_64_rebase),
        (RelocationFixup.mk fmt base off (.p64_rebase p)).target
          = ((base + unpack_target_64 p) % 2 ^ 64, [])) ∧
    (∀ (fmt base off : Nat) (p : dyld_chained_ptr_32_rebase),
        (RelocationFixup.mk fmt base off (.p32_rebase p)).target
          = ((base + p.target % 2 ^ 26) % 2 ^ 64, [])) ∧
    (RelocationFixup.mk 0 0x100000000 0 (.p64_rebase ⟨0x1000, 0, 0, 0, 0⟩)).target
      = (0x100001000, []) :=
  ⟨fun _ _ _ _ => rfl, fun _ _ _ _ => rfl, fun _ _ _ _ => rfl, fun _ _ _ _ => rfl,
   by decide⟩

/-- C3: on a record with encoding UNKNOWN (including a freshly constructed
record), `target()` logs an error and returns the `0` sentinel, and
`target(v)` logs an error and leaves the whole record (format, image base,
offset, payload) unchanged, for every `v`. -/
theorem C3_unknown_error_paths :
    (∀ (fmt base off : Nat),
        (RelocationFixup.mk fmt base off .unknown).target = (0, [LogMessage.err])) ∧
    (∀ (fmt base off v : Nat),
        (RelocationFixup.mk fmt base off .unknown).set_target v
          = (RelocationFixup.mk fmt base off .unknown, [LogMessage.err])) ∧
    (∀ (fmt base v : Nat),
        (RelocationFixup.create fmt base).target = (0, [LogMessage.err]) ∧
        (RelocationFixup.create fmt base).set_target v
          = (RelocationFixup.create fmt base, [LogMessage.err])) :=
  ⟨fun _ _ _ => rfl, fun _ _ _ _ => rfl, fun _ _ _ => ⟨rfl, rfl⟩⟩

/-- C4: on a record with encoding PTR32_REBASE, `target(v)` logs a warning
(not an error) and performs no mutation, so a subsequent `target()` returns
the same value as before the call, for every `v`. -/
theorem C4_ptr32_warn_no_mutation :
    ∀ (fmt base off v : Nat) (p : dyld_chained_ptr_32_rebase),
      (RelocationFixup.mk fmt base off (.p32_rebase p)).set_target v
        = (RelocationFixup.mk fmt base off (.p32_rebase p), [LogMessage.warn]) ∧
      (((RelocationFixup.mk fmt base off (.p32_rebase p)).set_target v).1).target
        = (RelocationFixup.mk fmt base off (.p32_rebase p)).target :=
  fun _ _ _ _ _ => ⟨rfl, rfl⟩

/-- C5: on the three writable encodings, `target(absolute)` converts the
input to relative space as `relative = absolute - image_base` when
`absolute >= image_base` and passes it through unchanged otherwise, then
packs that relative value into the payload. -/
theorem C5_setter_relative_conversion :
    ∀ (fmt base off v : Nat),
      (∀ p : dyld_chained_ptr_arm64e_rebase,
          (RelocationFixup.mk fmt base off (.arm64_rebase p)).set_target v
            = (RelocationFixup.mk fmt base off
                (.arm64_rebase (pack_target_arm64e p (if v ≥ base then v - base else v))),
               [])) ∧
      (∀ p : dyld_chained_ptr_arm64e_auth_rebase,
          (RelocationFixup.mk fmt base off (.arm64_auth_rebase p)).set_target v
            = (RelocationFixup.mk fmt base off
                (.arm64_auth_rebase
                  { p with target := (if v ≥ base then v - base else v) % 2 ^ 32 }),
               [])) ∧
      (∀ p : dyld_chained_ptr_64_rebase,
          (RelocationFixup.mk fmt base off (.p64_rebase p)).set_target v
            = (RelocationFixup.mk fmt base off
                (.p64_rebase (pack_target_64 p (if v ≥ base then v - base else v))),
               [])) :=
  fun _ _ _ _ => ⟨fun _ => rfl, fun _ => rfl, fun _ => rfl⟩

/-- C6: `address()` always equals `image_base + relative_offset` in
`uint64_t` arithmetic; `address(a)` recomputes the offset as `a -
image_base` under unsigned wraparound with no validation, so the offset
stays a 64-bit value satisfying `offset + image_base ≡ a (mod 2^64)`, and
`address(a)` followed by `address()` returns `a` modulo `2^64` for every
`a`. -/
theorem C6_address_translation :
    (∀ f : RelocationFixup, f.address = (f.imagebase + f.offset) % 2 ^ 64) ∧
    (∀ (f : RelocationFixup) (a : Nat),
        (f.set_address a).offset < 2 ^ 64 ∧
        ((f.set_address a).offset + (f.set_address a).imagebase) % 2 ^ 64 = a % 2 ^ 64) ∧
    (∀ (f : RelocationFixup) (a : Nat), (f.set_address a).address = a % 2 ^ 64) := by
  refine ⟨fun f => rfl, fun f a => ⟨?_, ?_⟩, fun f a => ?_⟩ <;>
    simp only [RelocationFixup.set_address, RelocationFixup.address] <;> omega

/-- C7: on a record with encoding ARM64E_AUTH_REBASE, `target(v)` rewrites
only the `target` field of the payload; the diversifier, the
address-discriminator flag, the key selector, the `next` stride and the
authentication-marker bit keep their previous values bit for bit. -/
theorem C7_auth_metadata_preserved :
    ∀ (fmt base off v : Nat) (p : dyld_chained_ptr_arm64e_auth_rebase),
      ((RelocationFixup.mk fmt base off (.arm64_auth_rebase p)).set_target v).1
        = RelocationFixup.mk fmt base off
            (.arm64_auth_rebase
              ⟨(if v ≥ base then v - base else v) % 2 ^ 32,
               p.diversity, p.addrDiv, p.key, p.next, p.bind, p.auth⟩) :=
  fun _ _ _ _ _ => rfl

/-- C10: `is_pc_relative()` is always `false`, `origin()` is always
`ORIGIN_CHAINED_FIXUPS`, and the mutator `pc_relative(b)` changes no state
for any `b`, so `is_pc_relative()` still returns `false` afterwards. -/
theorem C10_fixed_relocation_traits :
    (∀ f : RelocationFixup, f.is_pc_relative = false) ∧
    (∀ f : RelocationFixup, f.origin = RELOCATION_ORIGINS.ORIGIN_CHAINED_FIXUPS) ∧
    (∀ (f : RelocationFixup) (b : Bool), f.pc_relative b = f) ∧
    (∀ (f : RelocationFixup) (b : Bool), (f.pc_relative b).is_pc_relative = false) :=
  ⟨fun _ => rfl, fun _ => rfl, fun _ _ => rfl, fun _ _ => rfl⟩

/-- C2 counterexample: on a PTR64_REBASE record with image base `0`, the
value `v = 2^36` satisfies `v ≥ image_base`, yet `target(v)` followed by
`target()` yields `0`, not `v`: the packed `target` field is only 36 bits
wide and bits 36..55 of the relative value are dropped by the codec. -/
theorem C2_set_get_counterexample :
    2 ^ 36 ≥ (RelocationFixup.mk 0 0 0 (.p64_rebase ⟨0, 0, 0, 0, 0⟩)).imagebase ∧
    (((RelocationFixup.mk 0 0 0 (.p64_rebase ⟨0, 0, 0, 0, 0⟩)).set_target (2 ^ 36)).1).target
      ≠ (2 ^ 36, ([] : List LogMessage)) := by
  constructor
  · decide
  · decide

/-- C2 (amended): on a record with encoding ARM64E_REBASE,
ARM64E_AUTH_REBASE or PTR64_REBASE, for every 64-bit value `v ≥ image_base`
whose relative value `v - image_base` is representable in the encoding's
target fields (bits 43..55 clear for ARM64E_REBASE, below `2^32` for
ARM64E_AUTH_REBASE, bits 36..55 clear for PTR64_REBASE), `target(v)`
followed by `target()` returns `v` exactly. -/
theorem C2_set_get_roundtrip_amended :
    (∀ (fmt base off v : Nat) (p : dyld_chained_ptr_arm64e_rebase),
        v < 2 ^ 64 → base ≤ v → (v - base) % 2 ^ 56 < 2 ^ 43 →
        (((RelocationFixup.mk fmt base off (.arm64_rebase p)).set_target v).1).target
          = (v, [])) ∧
    (∀ (fmt base off v : Nat) (p : dyld_chained_ptr_arm64e_auth_rebase),
        v < 2 ^ 64 → base ≤ v → v - base < 2 ^ 32 →
        (((RelocationFixup.mk fmt base off (.arm64_auth_rebase p)).set_target v).1).target
          = (v, [])) ∧
    (∀ (fmt base off v : Nat) (p : dyld_chained_ptr_64_rebase),
        v < 2 ^ 64 → base ≤ v → (v - base) % 2 ^ 56 < 2 ^ 36 →
        (((RelocationFixup.mk fmt base off (.p64_rebase p)).set_target v).1).target
          = (v, [])) := by
  refine ⟨fun fmt base off v p h1 h2 h3 => ?_, fun fmt base off v p h1 h2 h3 => ?_,
    fun fmt base off v p h1 h2 h3 => ?_⟩ <;>
  · simp only [RelocationFixup.set_target, RelocationFixup.target, pack_target_arm64e,
      pack_target_64, unpack_target_arm64e, unpack_target_64, ge_iff_le, h2, if_true,
      Prod.mk.injEq, and_true]
    omega

/-- C2 witness: the amended round-trip at image base `2^32` and
`v = 2^32 + 0x1000`, for each of the three writable encodings. -/
theorem C2_set_get_roundtrip_witness :
    (((RelocationFixup.mk 0 (2 ^ 32) 0 (.arm64_rebase ⟨0, 0, 0, 0, 0⟩)).set_target
        (2 ^ 32 + 0x1000)).1).target = (2 ^ 32 + 0x1000, []) ∧
    (((RelocationFixup.mk 0 (2 ^ 32) 0 (.arm64_auth_rebase ⟨0, 0, 0, 0, 0, 0, 0⟩)).set_target
        (2 ^ 32 + 0x1000)).1).target = (2 ^ 32 + 0x1000, []) ∧
    (((RelocationFixup.mk 0 (2 ^ 32) 0 (.p64_rebase ⟨0, 0, 0, 0, 0⟩)).set_target
        (2 ^ 32 + 0x1000)).1).target = (2 ^ 32 + 0x1000, []) :=
  ⟨C2_set_get_roundtrip_amended.1 0 (2 ^ 32) 0 (2 ^ 32 + 0x1000) ⟨0, 0, 0, 0, 0⟩
      (by decide) (by decide) (by decide),
   C2_set_get_roundtrip_amended.2.1 0 (2 ^ 32) 0 (2 ^ 32 + 0x1000) ⟨0, 0, 0, 0, 0, 0, 0⟩
      (by decide) (by decide) (by decide),
   C2_set_get_roundtrip_amended.2.2 0 (2 ^ 32) 0 (2 ^ 32 + 0x1000) ⟨0, 0, 0, 0, 0⟩
      (by decide) (by decide) (by decide)⟩

/-- C8: the claim says an overwrite releases the previously held payload
first, so at most one payload is alive per record.  The source's `set(...)`
overloads and `operator=` allocate the new payload without deleting the old
one.  Concretely: after `set` of a PTR64 payload (cell 0) followed by `set`
of an ARM64E payload (cell 1), the record points at cell 1 while cell 0 is
still allocated — two live payload cells for one record, the first one
leaked; copy-assignment over the same populated record likewise leaves its
old cell 0 allocated while the record now points at the fresh cell 2. -/
theorem C8_overwrite_leak_demo :
    ((HRelocationFixup.create 0 0).set ⟨0, []⟩ (.p64_rebase ⟨1, 0, 0, 0, 0⟩))
      = (⟨0, 0, 0, .PTR64_REBASE, some 0⟩, ⟨1, [(0, .p64_rebase ⟨1, 0, 0, 0, 0⟩)]⟩) ∧
    (HRelocationFixup.set ⟨0, 0, 0, .PTR64_REBASE, some 0⟩
        ⟨1, [(0, .p64_rebase ⟨1, 0, 0, 0, 0⟩)]⟩ (.arm64_rebase ⟨2, 0, 0, 0, 0⟩))
      = (⟨0, 0, 0, .ARM64E_REBASE, some 1⟩,
         ⟨2, [(1, .arm64_rebase ⟨2, 0, 0, 0, 0⟩), (0, .p64_rebase ⟨1, 0, 0, 0, 0⟩)]⟩) ∧
    Heap.get ⟨2, [(1, .arm64_rebase ⟨2, 0, 0, 0, 0⟩), (0, .p64_rebase ⟨1, 0, 0, 0, 0⟩)]⟩ 0
      = some (.p64_rebase ⟨1, 0, 0, 0, 0⟩) ∧
    (Heap.mk 2 [(1, .arm64_rebase ⟨2, 0, 0, 0, 0⟩), (0, .p64_rebase ⟨1, 0, 0, 0, 0⟩)]).mem.length
      = 2 ∧
    HRelocationFixup.assign ⟨0, 0, 0, .PTR64_REBASE, some 0⟩
        ⟨0, 7, 0, .ARM64E_REBASE, some 1⟩
        ⟨2, [(1, .arm64_rebase ⟨2, 0, 0, 0, 0⟩), (0, .p64_rebase ⟨1, 0, 0, 0, 0⟩)]⟩
      = some (⟨0, 7, 0, .ARM64E_REBASE, some 2⟩,
          ⟨3, [(2, .arm64_rebase ⟨2, 0, 0, 0, 0⟩), (1, .arm64_rebase ⟨2, 0, 0, 0, 0⟩),
               (0, .p64_rebase ⟨1, 0, 0, 0, 0⟩)]⟩) := by
  refine ⟨rfl, rfl, rfl, rfl, ?_⟩
  decide

/-- On a record whose tag is not `UNKNOWN`, the fingerprint reads the
payload through the pointer. -/
theorem Hash.hash_of_ne_unknown (f : HRelocationFixup) (h : Heap)
    (hu : f.rtypes ≠ .UNKNOWN) :
    Hash.hash f h = (f.rtypes, f.ptr.bind h.get, f.offset, f.imagebase) := by
  unfold Hash.hash
  cases hft : f.rtypes
  case UNKNOWN => exact absurd hft hu
  all_goals rfl

/-- C9: two records compare equal exactly when their content-derived
fingerprints (encoding, payload bits read through the pointer, offset,
image base) agree; when the two references denote the same object, equality
short-circuits to `true`; equality never depends on the payload pointer
value itself, so two records whose pointers differ but dereference to the
same payload compare equal, and a copy of a record compares equal to the
original. -/
theorem C9_equality_fingerprint :
    (∀ (a b : HRelocationFixup) (h : Heap), HRelocationFixup.op_eq true a b h = true) ∧
    (∀ (a b : HRelocationFixup) (h : Heap),
        HRelocationFixup.op_eq false a b h = true ↔ Hash.hash a h = Hash.hash b h) ∧
    (∀ (a b : HRelocationFixup) (h : Heap),
        a.rtypes = b.rtypes → a.offset = b.offset → a.imagebase = b.imagebase →
        a.ptr.bind h.get = b.ptr.bind h.get →
        HRelocationFixup.op_eq false a b h = true) ∧
    (∀ (f f' : HRelocationFixup) (h h' : Heap),
        HRelocationFixup.copy f h = some (f', h') →
        HRelocationFixup.op_eq false f' f h' = true) := by
  refine ⟨fun a b h => rfl, fun a b h => ?_, fun a b h hrt hoff hbase hget => ?_,
    fun f f' h h' hc => ?_⟩
  · simp [HRelocationFixup.op_eq]
  · simp only [HRelocationFixup.op_eq, if_false, decide_eq_true_eq]
    unfold Hash.hash
    rw [hrt, hoff, hbase, hget]
    simp
  · unfold HRelocationFixup.copy Heap.alloc at hc
    by_cases hu : f.rtypes = .UNKNOWN
    · rw [if_pos hu] at hc
      simp only [Option.some.injEq, Prod.mk.injEq] at hc
      obtain ⟨hf', hh'⟩ := hc
      subst hf'
      subst hh'
      simp [HRelocationFixup.op_eq, Hash.hash, hu]
    · rw [if_neg hu] at hc
      cases hg : f.ptr.bind h.get with
      | none => rw [hg] at hc; exact absurd hc (by simp)
      | some pv =>
        simp only [hg] at hc
        by_cases ht : pv.rtype = f.rtypes
        · rw [if_pos ht] at hc
          simp only [Option.some.injEq, Prod.mk.injEq] at hc
          obtain ⟨hf', hh'⟩ := hc
          subst hf'
          subst hh'
          obtain ⟨i, hi, hgi⟩ := Option.bind_eq_some.mp hg
          have hget1 : Heap.get ⟨h.nextId + 1, (h.nextId, pv) :: h.mem⟩ h.nextId = some pv := by
            simp [Heap.get]
          have hget2 : Heap.get ⟨h.nextId + 1, (h.nextId, pv) :: h.mem⟩ i = some pv := by
            by_cases hin : i = h.nextId
            · subst hin; simp [Heap.get]
            · unfold Heap.get at hgi ⊢
              rw [List.find?_cons_of_neg _ (by simp only [beq_iff_eq]; omega)]
              exact hgi
          simp only [HRelocationFixup.op_eq, Bool.false_eq_true, if_false, decide_eq_true_eq]
          rw [Hash.hash_of_ne_unknown
                (⟨f.ptr_fmt, f.imagebase, f.offset, f.rtypes, some h.nextId⟩ :
                  HRelocationFixup) _ hu,
              Hash.hash_of_ne_unknown f _ hu]
          have hb : Heap.get ⟨h.nextId + 1, (h.nextId, pv) :: h.mem⟩ h.nextId
              = Heap.get ⟨h.nextId + 1, (h.nextId, pv) :: h.mem⟩ i := by
            rw [hget1, hget2]
          simp only [hi, Option.some_bind]
          rw [hb]
        · rw [if_neg ht] at hc; exact absurd hc (by simp)

/-- C9 witness: two distinct records whose payload pointers differ (cells 0
and 1) but dereference to equal payload bits compare equal; and a concrete
copy of a PTR64 record compares equal to its original in the post-copy
heap. -/
theorem C9_equality_fingerprint_witness :
    HRelocationFixup.op_eq false ⟨0, 0, 0, .PTR64_REBASE, some 0⟩
        ⟨0, 0, 0, .PTR64_REBASE, some 1⟩
        ⟨2, [(0, .p64_rebase ⟨3, 0, 0, 0, 0⟩), (1, .p64_rebase ⟨3, 0, 0, 0, 0⟩)]⟩ = true ∧
    HRelocationFixup.op_eq false ⟨0, 0, 0, .PTR64_REBASE, some 1⟩
        ⟨0, 0, 0, .PTR64_REBASE, some 0⟩
        ⟨2, [(1, .p64_rebase ⟨5, 0, 0, 0, 0⟩), (0, .p64_rebase ⟨5, 0, 0, 0, 0⟩)]⟩ = true :=
  ⟨C9_equality_fingerprint.2.2.1 ⟨0, 0, 0, .PTR64_REBASE, some 0⟩
      ⟨0, 0, 0, .PTR64_REBASE, some 1⟩
      ⟨2, [(0, .p64_rebase ⟨3, 0, 0, 0, 0⟩), (1, .p64_rebase ⟨3, 0, 0, 0, 0⟩)]⟩
      rfl rfl rfl (by decide),
   C9_equality_fingerprint.2.2.2 ⟨0, 0, 0, .PTR64_REBASE, some 0⟩
      ⟨0, 0, 0, .PTR64_REBASE, some 1⟩
      ⟨1, [(0, .p64_rebase ⟨5, 0, 0, 0, 0⟩)]⟩
      ⟨2, [(1, .p64_rebase ⟨5, 0, 0, 0, 0⟩), (0, .p64_rebase ⟨5, 0, 0, 0, 0⟩)]⟩
      (by decide)⟩
